import Mathlib

/-
  Verification development for the Image-Format-Converter repository
  (src/img_convert_gui.py).  The embedded core is the `ImageConverter`
  worker: `save_as_heic` (lines 91-123), `convert_image` (lines 125-204)
  and `run` (lines 210-233).  Pure path arithmetic follows CPython's
  posixpath implementations of normpath / basename / dirname / splitext /
  join, since the source calls them on the input and output paths.
  External I/O (PIL decode, PIL/pillow_heif encode, os.remove) is modelled
  by an environment record carrying each call's outcome; emitted Qt
  signals become an explicit event list and filesystem side effects an
  explicit action list.
-/

namespace ImgConv

/-- ASCII uppercase, modelling Python str.upper on the ASCII strings the
program manipulates (format names and extensions). -/
def strUpper (s : String) : String := ⟨s.data.map Char.toUpper⟩

/-- ASCII lowercase, modelling Python str.lower. -/
def strLower (s : String) : String := ⟨s.data.map Char.toLower⟩

/-- Python `s[1:]` (used as `ext[1:]` at line 141). -/
def strDrop1 (s : String) : String := ⟨s.data.drop 1⟩

/-- posixpath.basename: the part of the path after the last slash. -/
def basename (p : String) : String :=
  ⟨(p.data.reverse.takeWhile (fun c => c != '/')).reverse⟩

/-- posixpath.dirname: everything before the last slash, with trailing
slashes stripped unless the head consists only of slashes. -/
def dirname (p : String) : String :=
  let headRev := p.data.reverse.dropWhile (fun c => c != '/')
  if headRev.isEmpty then ""
  else if headRev.all (fun c => c == '/') then ⟨headRev.reverse⟩
  else ⟨(headRev.dropWhile (fun c => c == '/')).reverse⟩

/-- posixpath.splitext on a basename: split at the last dot, but only when
some character before that dot is not itself a dot (so ".bashrc" keeps an
empty extension). -/
def splitext (b : String) : String × String :=
  let rev := b.data.reverse
  let afterDot := rev.takeWhile (fun c => c != '.')
  if afterDot.length = rev.length then (b, "")
  else
    let beforeRev := rev.drop (afterDot.length + 1)
    if beforeRev.all (fun c => c == '.') then (b, "")
    else (⟨beforeRev.reverse⟩, ⟨'.' :: afterDot.reverse⟩)

/-- Split a character list on '/', keeping empty components, as
Python's str.split('/') does. -/
def splitSlash : List Char → List (List Char)
  | [] => [[]]
  | c :: cs =>
    match splitSlash cs with
    | [] => [[c]]
    | g :: gs => if c == '/' then [] :: g :: gs else (c :: g) :: gs

/-- The number of initial slashes posixpath.normpath preserves: exactly two
slashes are kept as two, any other positive count collapses to one. -/
def initSlashes (cs : List Char) : Nat :=
  match cs with
  | '/' :: '/' :: '/' :: _ => 1
  | '/' :: '/' :: _ => 2
  | '/' :: _ => 1
  | _ => 0

/-- One step of posixpath.normpath's component loop. -/
def normStep (initial : Nat) (newComps : List String) (comp : String) : List String :=
  if comp = "" ∨ comp = "." then newComps
  else if comp ≠ ".." ∨ (initial = 0 ∧ newComps = []) ∨
      (newComps ≠ [] ∧ newComps.getLast? = some "..") then
    newComps ++ [comp]
  else newComps.dropLast

/-- '/'.join on a list of components. -/
def joinSlash : List String → String
  | [] => ""
  | [s] => s
  | s :: rest => s ++ "/" ++ joinSlash rest

/-- posixpath.normpath, as called at line 131 (`os.path.normpath`). -/
def normpath (p : String) : String :=
  if p = "" then "."
  else
    let initial := initSlashes p.data
    let comps := (splitSlash p.data).map (fun l => (⟨l⟩ : String))
    let newComps := comps.foldl (normStep initial) []
    let path := (⟨List.replicate initial '/'⟩ : String) ++ joinSlash newComps
    if path = "" then "." else path

/-- posixpath.join restricted to two arguments, as called at line 160. -/
def joinPath (a b : String) : String :=
  if b.data.head? = some '/' then b
  else if a = "" ∨ a.data.getLast? = some '/' then a ++ b
  else a ++ "/" ++ b

/-- Shape of the numpy array obtained from a decoded PIL image: such an
array is 2-dimensional (grayscale-like modes) or 3-dimensional
(height, width, channels). -/
inductive PixelShape where
  | twoD (h w : Nat)
  | threeD (h w c : Nat)
deriving DecidableEq, Repr

/-- A decoded PIL image: its mode string and its numpy-array shape. -/
structure PILImage where
  mode : String
  shape : PixelShape
deriving DecidableEq, Repr

/-- A Python exception as far as convert_image's handlers distinguish them:
FileNotFoundError versus every other Exception (whose str() and formatted
traceback feed the error message). -/
inductive PyErr where
  | fileNotFound
  | exn (msg : String) (tb : String)
deriving DecidableEq, Repr

/-- The constructor arguments of ImageConverter that convert_image reads. -/
structure ConvOptions where
  output_format : String
  output_dir : String
  append_suffix : Bool
  replace_files : Bool
  heic_quality : Int
deriving DecidableEq, Repr

/-- Outcome of each external call convert_image makes, fixed per task. -/
structure TaskEnv where
  cancelled : Bool
  fileOnDisk : Bool
  decodeResult : Except PyErr PILImage
  encodeResult : Except PyErr Unit
  removeResult : Except PyErr Unit

/-- The Qt signals of WorkerSignals, as emitted events. -/
inductive Event where
  | progress (pct : Nat)
  | completed (n : Nat)
  | finished
  | error (msg : String)
  | log (msg : String)
deriving DecidableEq, Repr

/-- Filesystem-visible effects of a task: a decode attempt of the source,
a completed write of the output (with the mode of the pixel data handed to
the encoder), and a completed deletion of the source. -/
inductive Action where
  | decode (path : String)
  | write (path : String) (mode : String)
  | delete (path : String)
deriving DecidableEq, Repr

/-- Return value of the task together with its emitted events and effects. -/
structure TaskResult where
  success : Bool
  events : List Event
  actions : List Action
deriving DecidableEq, Repr

/-- What save_as_heic hands to the pillow_heif encoder: the mode string, the
cv2 channel reorder applied (if any), and the clamped quality. -/
structure HeicCall where
  mode : String
  reorder : Option String
  quality : Int
deriving DecidableEq, Repr

/-- Rendering of a numpy shape tuple, as it appears in the f-string of the
ValueError at line 112. -/
def shapeStr : PixelShape → String
  | .twoD h w => "(" ++ toString h ++ ", " ++ toString w ++ ")"
  | .threeD h w c => "(" ++ toString h ++ ", " ++ toString w ++ ", " ++ toString c ++ ")"

/-- save_as_heic (lines 91-123) without the byte-level buffer: chooses the
cv2 reorder and the mode from the array's shape, clamps quality to [0,100],
and raises ValueError on any other 3-d channel count. -/
def save_as_heic (heic_quality : Int) (shape : PixelShape) : Except String HeicCall :=
  let reorder : Option String :=
    match shape with
    | .threeD _ _ 3 => some "COLOR_RGB2BGR"
    | .threeD _ _ 4 => some "COLOR_RGBA2BGRA"
    | _ => none
  match shape with
  | .twoD _ _ => .ok ⟨"L", reorder, max 0 (min 100 heic_quality)⟩
  | .threeD _ _ 3 => .ok ⟨"BGR", reorder, max 0 (min 100 heic_quality)⟩
  | .threeD _ _ 4 => .ok ⟨"BGRA", reorder, max 0 (min 100 heic_quality)⟩
  | sh => .error ("Unsupported image shape: " ++ shapeStr sh)

/-- The output path computed at lines 140-162 from the normalized input
path: optional "_out" suffix, output directory or (when replacing) the
source's own directory, and the lowercased format as extension. -/
def output_path_of (opts : ConvOptions) (input_path : String) : String :=
  let base0 := (splitext (basename input_path)).1
  let base_name := if opts.append_suffix && !opts.replace_files then base0 ++ "_out" else base0
  let out_dir := if !opts.replace_files then opts.output_dir else dirname input_path
  joinPath out_dir (base_name ++ "." ++ strLower opts.output_format)

/-- The error event built in the generic except-clause at lines 200-203. -/
def errorEvent (input_path msg tb : String) : Event :=
  .error ("Error converting " ++ input_path ++ ": " ++ msg ++ "\n" ++ tb)

/-- The two except-clauses of convert_image (lines 195-204), applied to the
events and actions accumulated before the exception was raised. -/
def handleExn (input_path : String) (evs : List Event) (acts : List Action) :
    PyErr → TaskResult
  | .fileNotFound =>
      ⟨false, evs ++ [.log ("Skipping: " ++ input_path ++ " - file no longer exists")], acts⟩
  | .exn msg tb => ⟨false, evs ++ [errorEvent input_path msg tb], acts⟩

/-- Lines 190-194: after a successful encode, delete the original when
replacing, then log success and return True.  A failing os.remove falls to
the except-clauses and the source file is not deleted. -/
def finishTask (opts : ConvOptions) (env : TaskEnv) (input_path : String)
    (evs : List Event) (acts : List Action) : TaskResult :=
  if opts.replace_files then
    match env.removeResult with
    | .error e => handleExn input_path evs acts e
    | .ok _ =>
        ⟨true, evs ++ [.log ("Successfully converted: " ++ input_path)],
          acts ++ [.delete input_path]⟩
  else
    ⟨true, evs ++ [.log ("Successfully converted: " ++ input_path)], acts⟩

/-- The "Converting: ... to ..." log line of line 165, for a normalized
input path. -/
def convLog (opts : ConvOptions) (ip : String) : Event :=
  .log ("Converting: " ++ ip ++ " to " ++ output_path_of opts ip)

/-- Condition of lines 171-174: target format is JPG/JPEG and the decoded
mode is RGBA or palette. -/
def toRGBcond (opts : ConvOptions) (img0 : PILImage) : Bool :=
  (strUpper opts.output_format == "JPG" || strUpper opts.output_format == "JPEG")
    && (img0.mode == "RGBA" || img0.mode == "P")

/-- Line 175: `image = image.convert("RGB")` when the condition holds.  The
numpy shape is left untouched; it is only consulted on the HEIC path, which
is mutually exclusive with the JPG normalization. -/
def rgbImage (opts : ConvOptions) (img0 : PILImage) : PILImage :=
  if toRGBcond opts img0 then { img0 with mode := "RGB" } else img0

/-- Events emitted up to and including the optional RGB-normalization log
of lines 176-178. -/
def rgbEvents (opts : ConvOptions) (ip : String) (img0 : PILImage) : List Event :=
  if toRGBcond opts img0 then
    [convLog opts ip, .log ("Converting image to RGB mode for " ++ opts.output_format)]
  else [convLog opts ip]

/-- Lines 180-194 (with the except-clauses applied to them): the special
HEIC encode path or the plain PIL save, then the optional delete of the
original.  `ev1` holds the events emitted so far and `output_path` the
output path computed earlier. -/
def encodeStage (opts : ConvOptions) (env : TaskEnv) (input_path output_path : String)
    (ev1 : List Event) (img : PILImage) : TaskResult :=
  let acts := [Action.decode input_path]
  if strUpper opts.output_format = "HEIC" then
    let ev2 := ev1 ++ [Event.log "Using pillow_heif for HEIC output"]
    match save_as_heic opts.heic_quality img.shape with
    | .error m => handleExn input_path ev2 acts (.exn m "")
    | .ok call =>
      match env.encodeResult with
      | .error e => handleExn input_path ev2 acts e
      | .ok _ => finishTask opts env input_path ev2
          (acts ++ [.write output_path call.mode])
  else
    match env.encodeResult with
    | .error e => handleExn input_path ev1 acts e
    | .ok _ => finishTask opts env input_path ev1
        (acts ++ [.write output_path img.mode])

/-- convert_image (lines 125-204).  The os.makedirs call at line 155 only
creates the output directory and is not an observable of any claim, so it
is not recorded; its possible failure is subsumed by encodeResult since
both land in the same except-clause. -/
def convert_image (opts : ConvOptions) (env : TaskEnv) (input_path0 : String) : TaskResult :=
  if env.cancelled then ⟨false, [], []⟩
  else
    let input_path := normpath input_path0
    if !env.fileOnDisk then
      ⟨false, [.log ("Skipping: " ++ input_path ++ " - file no longer exists")], []⟩
    else
      let ext := strUpper (strDrop1 (splitext (basename input_path)).2)
      if ext = strUpper opts.output_format then
        ⟨false, [.log ("Skipping: " ++ input_path ++ " - same format conversion")], []⟩
      else
        match env.decodeResult with
        | .error e => handleExn input_path [convLog opts input_path] [.decode input_path] e
        | .ok img0 =>
          encodeStage opts env input_path (output_path_of opts input_path)
            (rgbEvents opts input_path img0) (rgbImage opts img0)

/-- The result-consumption loop of run (lines 222-231): one future result
per file in completion order, a cancellation check at the top of each
iteration (`cancel i` is the flag value the i-th check observes), the
completed counter incremented only on a True result, and a progress plus a
completed event after each processed result. -/
def runLoop : List Bool → (Nat → Bool) → Nat → Nat → Nat → List Event
  | [], _, _, _, _ => []
  | r :: rs, cancel, i, completed, total =>
    if cancel i then []
    else
      let completed' := if r then completed + 1 else completed
      Event.progress (completed' * 100 / total) :: Event.completed completed' ::
        runLoop rs cancel (i + 1) completed' total

/-- Environment of one run: the task results in completion order, the
cancellation-flag observations, and whether creating the worker pool (or
submitting to it) raised. -/
structure RunEnv where
  results : List Bool
  cancelObs : Nat → Bool
  poolFails : Bool

/-- run (lines 210-233).  When the ThreadPoolExecutor construction or the
submission raises, the exception propagates out of run before line 233, so
no event at all is emitted; otherwise the loop runs and the finished signal
is emitted exactly once afterwards. -/
def run (files : List String) (env : RunEnv) : List Event :=
  if env.poolFails then []
  else runLoop env.results env.cancelObs 0 0 files.length ++ [Event.finished]

/-- Number of succeeded results in a list. -/
def succCount (results : List Bool) : Nat := results.count true

/-- Modelled from the spec: after the (k+1)-st result arrives, emit a
progress event equal to floor(100 x completedTasksSoFar / totalTasks),
where completedTasksSoFar counts only results that succeeded, followed by
the completed-count event. -/
def specProgressEvents (results : List Bool) (total : Nat) : List Event :=
  ((List.range results.length).map fun k =>
    [Event.progress (100 * succCount (results.take (k + 1)) / total),
     Event.completed (succCount (results.take (k + 1)))]).flatten

/-- Modelled from the spec: PIL modes that carry an alpha channel. -/
def modeHasAlpha (m : String) : Bool := m == "RGBA" || m == "LA" || m == "PA"

/-- Modelled from the spec: PIL modes that are palette-indexed. -/
def modeIsPalette (m : String) : Bool := m == "P" || m == "PA"

lemma finished_not_mem_runLoop :
    ∀ (rs : List Bool) (cancel : Nat → Bool) (i c n : Nat),
      Event.finished ∉ runLoop rs cancel i c n := by
  intro rs
  induction rs with
  | nil => intro cancel i c n; simp [runLoop]
  | cons r rs ih =>
    intro cancel i c n
    simp only [runLoop]
    split
    · simp
    · simp only [List.mem_cons]
      push_neg
      exact ⟨by simp, by simp, ih cancel (i + 1) _ n⟩

lemma runLoop_length_of_cancel :
    ∀ (rs : List Bool) (cancel : Nat → Bool) (i c n k : Nat),
      cancel (i + k) = true → (runLoop rs cancel i c n).length ≤ 2 * k := by
  intro rs
  induction rs with
  | nil => intro cancel i c n k _; simp [runLoop]
  | cons r rs ih =>
    intro cancel i c n k hk
    by_cases hc : cancel i = true
    · simp [runLoop, hc]
    · cases k with
      | zero => rw [Nat.add_zero] at hk; exact absurd hk hc
      | succ k' =>
        rw [Bool.not_eq_true] at hc
        simp only [runLoop, hc, Bool.false_eq_true, if_false, List.length_cons]
        have hk' : cancel (i + 1 + k') = true := by
          have : i + 1 + k' = i + (k' + 1) := by omega
          rw [this]; exact hk
        have := ih cancel (i + 1) (if r then c + 1 else c) n k' hk'
        omega

/-- Claim C3 (counterexample): with the worker-pool construction raising,
the code emits no finished event at all, so "the terminal finished event
fires exactly once" fails for a run aborted by a run-level failure. -/
theorem c3_pool_failure_counterexample :
    (run ["a.png"] ⟨[true], fun _ => false, true⟩).count Event.finished = 0 ∧
    run ["a.png"] ⟨[true], fun _ => false, true⟩ = [] := by
  constructor <;> rfl

/-- Claim C3 (amended): whenever the worker pool is created and the result
loop is entered — a run that completes normally, one cancelled mid-run, or
one in which every task failed — the terminal finished event fires exactly
once; but when the pool construction (or task submission) raises, the
exception propagates out of run before line 233 and finished never fires. -/
theorem c3_finished_once_amended :
    ∀ (files : List String) (env : RunEnv), env.poolFails = false →
      (run files env).count Event.finished = 1 := by
  intro files env h
  simp only [run, h, Bool.false_eq_true, if_false]
  rw [List.count_append]
  have h0 : (runLoop env.results env.cancelObs 0 0 files.length).count Event.finished = 0 :=
    List.count_eq_zero.2 (finished_not_mem_runLoop _ _ _ _ _)
  rw [h0]
  rfl

theorem c3_finished_once_amended_witness :
    (run ["a.png", "b.png"] ⟨[false, false], fun i => decide (1 ≤ i), false⟩).count
      Event.finished = 1 :=
  c3_finished_once_amended ["a.png", "b.png"] ⟨[false, false], fun i => decide (1 ≤ i), false⟩ rfl

/-- Claim C5: a task that observes the cancellation flag at its start
returns immediately — no conversion, no events, no filesystem actions —
and once the result-consumption loop observes the flag at its k-th check
it breaks, so at most k results were processed and at most 2k
progress/completed events were ever emitted. -/
theorem c5_cancellation :
    (∀ opts env p, env.cancelled = true →
      convert_image opts env p = ⟨false, [], []⟩) ∧
    (∀ (results : List Bool) (cancel : Nat → Bool) (n k : Nat), cancel k = true →
      (runLoop results cancel 0 0 n).length ≤ 2 * k) := by
  constructor
  · intro opts env p h
    simp [convert_image, h]
  · intro results cancel n k hk
    exact runLoop_length_of_cancel results cancel 0 0 n k (by simpa using hk)

theorem c5_cancellation_witness :
    convert_image ⟨"JPG", "/out", true, false, 90⟩
        ⟨true, true, Except.ok ⟨"RGB", .threeD 2 2 3⟩, Except.ok (), Except.ok ()⟩
        "/in/photo.png" = ⟨false, [], []⟩ ∧
    (runLoop [true, true, true] (fun i => decide (1 ≤ i)) 0 0 3).length ≤ 2 * 1 :=
  ⟨c5_cancellation.1 _ _ _ rfl,
   c5_cancellation.2 [true, true, true] (fun i => decide (1 ≤ i)) 3 1 (by decide)⟩

/-- Claim C6: when the (case-insensitively compared) source extension
equals the target format, convert_image returns a skip whose log message
says "same format conversion", performs no decode, no write and no delete,
whatever the remaining options (including replaceOriginal). -/
theorem c6_same_format_skip :
    ∀ opts env p, env.cancelled = false → env.fileOnDisk = true →
      strUpper (strDrop1 (splitext (basename (normpath p))).2) = strUpper opts.output_format →
      convert_image opts env p =
        ⟨false, [.log ("Skipping: " ++ normpath p ++ " - same format conversion")], []⟩ := by
  intro opts env p hc hf he
  simp [convert_image, hc, hf, he]

theorem c6_same_format_skip_witness :
    convert_image ⟨"JPG", "/out", true, true, 90⟩
        ⟨false, true, Except.ok ⟨"RGB", .threeD 2 2 3⟩, Except.ok (), Except.ok ()⟩
        "/in/photo.jpg" =
      ⟨false, [.log ("Skipping: " ++ normpath "/in/photo.jpg" ++ " - same format conversion")], []⟩ :=
  c6_same_format_skip ⟨"JPG", "/out", true, true, 90⟩
    ⟨false, true, Except.ok ⟨"RGB", .threeD 2 2 3⟩, Except.ok (), Except.ok ()⟩
    "/in/photo.jpg" rfl rfl (by decide)

/-- Claim C7: save_as_heic clamps the configured quality to [0,100]
(57 stays 57, 150 becomes 100, -5 becomes 0), picks the channel layout from
the decoded array's shape — 2-d selects grayscale "L", 3 channels the
reordered (RGB to BGR) "BGR" path, 4 channels the reordered (RGBA to BGRA)
"BGRA" path — and any other shape raises an error naming the shape. -/
theorem c7_heic_encode :
    ∀ (q : Int) (h w : Nat),
      save_as_heic q (.twoD h w) = .ok ⟨"L", none, max 0 (min 100 q)⟩ ∧
      save_as_heic q (.threeD h w 3) = .ok ⟨"BGR", some "COLOR_RGB2BGR", max 0 (min 100 q)⟩ ∧
      save_as_heic q (.threeD h w 4) = .ok ⟨"BGRA", some "COLOR_RGBA2BGRA", max 0 (min 100 q)⟩ ∧
      (∀ c : Nat, c ≠ 3 → c ≠ 4 →
        save_as_heic q (.threeD h w c) =
          .error ("Unsupported image shape: " ++ shapeStr (.threeD h w c))) ∧
      save_as_heic 57 (.threeD 1 1 4) = .ok ⟨"BGRA", some "COLOR_RGBA2BGRA", 57⟩ ∧
      save_as_heic 150 (.threeD 1 1 4) = .ok ⟨"BGRA", some "COLOR_RGBA2BGRA", 100⟩ ∧
      save_as_heic (-5) (.threeD 1 1 4) = .ok ⟨"BGRA", some "COLOR_RGBA2BGRA", 0⟩ := by
  intro q h w
  refine ⟨rfl, rfl, rfl, ?_, by norm_num [save_as_heic], by norm_num [save_as_heic], by norm_num [save_as_heic]⟩
  intro c h3 h4
  rcases c with _ | _ | _ | _ | _ | n
  · rfl
  · rfl
  · rfl
  · exact absurd rfl h3
  · exact absurd rfl h4
  · rfl

theorem c7_heic_encode_witness :
    save_as_heic 7 (.threeD 2 3 5) =
      .error ("Unsupported image shape: " ++ shapeStr (.threeD 2 3 5)) :=
  (c7_heic_encode 7 2 3).2.2.2.1 5 (by decide) (by decide)

/-- Claim C8: with replaceOriginal false and appendSuffix true the output
path is the configured output directory joined with the base name, the
literal "_out", and the lowercased format extension — concretely
"/in/photo.png" to JPG with directory "/out" gives "/out/photo_out.jpg",
and that is the path the task actually writes; with replaceOriginal true
no suffix is appended and the directory is the source's own directory. -/
theorem c8_output_path :
    (∀ opts input, opts.replace_files = false → opts.append_suffix = true →
      output_path_of opts input =
        joinPath opts.output_dir
          ((splitext (basename input)).1 ++ "_out" ++ "." ++ strLower opts.output_format)) ∧
    output_path_of ⟨"JPG", "/out", true, false, 90⟩ "/in/photo.png" = "/out/photo_out.jpg" ∧
    (∀ opts input, opts.replace_files = true →
      output_path_of opts input =
        joinPath (dirname input)
          ((splitext (basename input)).1 ++ "." ++ strLower opts.output_format)) ∧
    (convert_image ⟨"JPG", "/out", true, false, 90⟩
        ⟨false, true, Except.ok ⟨"RGB", .threeD 2 2 3⟩, Except.ok (), Except.ok ()⟩
        "/in/photo.png").actions =
      [.decode "/in/photo.png", .write "/out/photo_out.jpg" "RGB"] := by
  refine ⟨?_, by decide, ?_, by decide⟩
  · intro opts input h1 h2
    simp [output_path_of, h1, h2]
  · intro opts input h1
    simp [output_path_of, h1]

theorem c8_output_path_witness :
    output_path_of ⟨"PNG", "/o", true, false, 90⟩ "/in/a.tif" =
      joinPath "/o" ((splitext (basename "/in/a.tif")).1 ++ "_out" ++ "." ++ strLower "PNG") :=
  c8_output_path.1 ⟨"PNG", "/o", true, false, 90⟩ "/in/a.tif" rfl rfl

/-- Claim C10: on an empty task list the loop body — and with it the
division by the task total — is never entered, so the run emits no
progress and no completed-count event and still emits finished exactly
once. -/
theorem c10_empty_run :
    ∀ cancel : Nat → Bool,
      run [] ⟨[], cancel, false⟩ = [Event.finished] ∧
      (∀ k, Event.progress k ∉ run [] ⟨[], cancel, false⟩) ∧
      (∀ k, Event.completed k ∉ run [] ⟨[], cancel, false⟩) ∧
      (run [] ⟨[], cancel, false⟩).count Event.finished = 1 := by
  intro cancel
  refine ⟨rfl, ?_, ?_, rfl⟩ <;> intro k <;> simp [run, runLoop]

lemma succCount_cons (r : Bool) (rs : List Bool) :
    succCount (r :: rs) = (if r then 1 else 0) + succCount rs := by
  cases r <;> simp [succCount, List.count_cons] <;> omega

lemma runLoop_nocancel_spec (total : Nat) :
    ∀ (results : List Bool) (i done : Nat),
      runLoop results (fun _ => false) i done total =
        ((List.range results.length).map fun k =>
          [Event.progress (100 * (done + succCount (results.take (k + 1))) / total),
           Event.completed (done + succCount (results.take (k + 1)))]).flatten := by
  intro results
  induction results with
  | nil => intro i done; simp [runLoop]
  | cons r rs ih =>
    intro i done
    have step : runLoop (r :: rs) (fun _ => false) i done total =
        Event.progress ((if r then done + 1 else done) * 100 / total) ::
        Event.completed (if r then done + 1 else done) ::
        runLoop rs (fun _ => false) (i + 1) (if r then done + 1 else done) total := rfl
    rw [step, ih (i + 1) (if r then done + 1 else done)]
    rw [List.length_cons, List.range_succ_eq_map, List.map_cons, List.flatten_cons,
      List.map_map]
    have harg : ∀ k : Nat,
        done + succCount ((r :: rs).take (k + 1 + 1)) =
          (if r then done + 1 else done) + succCount (rs.take (k + 1)) := by
      intro k
      rw [List.take_succ_cons, succCount_cons]
      cases r <;> simp <;> omega
    have hfun :
        ((fun k => [Event.progress (100 * (done + succCount ((r :: rs).take (k + 1))) / total),
            Event.completed (done + succCount ((r :: rs).take (k + 1)))]) ∘ (· + 1)) =
        (fun k => [Event.progress
            (100 * ((if r then done + 1 else done) + succCount (rs.take (k + 1))) / total),
          Event.completed ((if r then done + 1 else done) + succCount (rs.take (k + 1)))]) := by
      funext k
      simp only [Function.comp_apply, harg k]
    rw [hfun]
    have hhead : done + succCount ((r :: rs).take (0 + 1)) = (if r then done + 1 else done) := by
      simp [succCount_cons, succCount]
      cases r <;> simp <;> omega
    simp only [hhead, List.cons_append, List.nil_append, Nat.mul_comm]

/-- Claim C1: in a run with cancellation never observed and one result per
task, the emitted event stream is exactly, per arriving result, a progress
event equal to floor(100 x succeededSoFar / totalTasks) followed by the
completed-count event — where only results that returned True (succeeded)
count toward the numerator while skipped and failed results only enlarge
the denominator — and progress reaches 100 only if every task succeeded. -/
theorem c1_progress_formula :
    ∀ (files : List String) (results : List Bool),
      results.length = files.length →
      run files ⟨results, fun _ => false, false⟩ =
        specProgressEvents results files.length ++ [Event.finished] ∧
      (Event.progress 100 ∈ run files ⟨results, fun _ => false, false⟩ →
        ∀ r ∈ results, r = true) := by
  intro files results hlen
  have hrun : run files ⟨results, fun _ => false, false⟩ =
      specProgressEvents results files.length ++ [Event.finished] := by
    show runLoop results (fun _ => false) 0 0 files.length ++ [Event.finished] = _
    rw [runLoop_nocancel_spec files.length results 0 0]
    unfold specProgressEvents
    simp only [Nat.zero_add]
  refine ⟨hrun, ?_⟩
  intro hmem r hr
  rw [hrun] at hmem
  have hspec : Event.progress 100 ∈ specProgressEvents results files.length := by
    rcases List.mem_append.1 hmem with h | h
    · exact h
    · simp at h
  unfold specProgressEvents at hspec
  rw [List.mem_flatten] at hspec
  obtain ⟨l, hl, hmem2⟩ := hspec
  rw [List.mem_map] at hl
  obtain ⟨k, hk, rfl⟩ := hl
  simp only [List.mem_cons, List.not_mem_nil, or_false] at hmem2
  have hq : 100 * succCount (results.take (k + 1)) / files.length = 100 := by
    rcases hmem2 with h | h
    · exact (Event.progress.inj h).symm
    · exact absurd h (by simp)
  have hpos : 0 < files.length := by
    rw [← hlen]
    rcases results with _ | ⟨r0, rs⟩
    · simp at hk
    · simp
  have h1 : files.length ≤ succCount (results.take (k + 1)) := by
    have h100 : 100 ≤ 100 * succCount (results.take (k + 1)) / files.length := hq.ge
    have := (Nat.le_div_iff_mul_le hpos).1 h100
    omega
  have h2 : succCount (results.take (k + 1)) ≤ succCount results :=
    List.Sublist.count_le (List.take_sublist _ _) _
  have h3 : succCount results ≤ results.length := List.count_le_length _ _
  have hall : succCount results = results.length := by omega
  have := List.count_eq_length.1 hall
  exact (this r hr).symm

theorem c1_progress_formula_witness :
    run ["a.png", "b.png"] ⟨[true, false], fun _ => false, false⟩ =
      specProgressEvents [true, false] 2 ++ [Event.finished] :=
  (c1_progress_formula ["a.png", "b.png"] [true, false] rfl).1

lemma handleExn_actions (ip : String) (evs : List Event) (acts : List Action) (e : PyErr) :
    (handleExn ip evs acts e).actions = acts := by
  cases e <;> rfl

lemma handleExn_success (ip : String) (evs : List Event) (acts : List Action) (e : PyErr) :
    (handleExn ip evs acts e).success = false := by
  cases e <;> rfl

lemma finishTask_char (opts : ConvOptions) (env : TaskEnv) (ip : String)
    (evs : List Event) (acts : List Action) :
    (env.removeResult = Except.ok () ∧ opts.replace_files = true ∧
      finishTask opts env ip evs acts =
        ⟨true, evs ++ [.log ("Successfully converted: " ++ ip)], acts ++ [.delete ip]⟩) ∨
    (∃ e, env.removeResult = Except.error e ∧ opts.replace_files = true ∧
      finishTask opts env ip evs acts = handleExn ip evs acts e) ∨
    (opts.replace_files = false ∧
      finishTask opts env ip evs acts =
        ⟨true, evs ++ [.log ("Successfully converted: " ++ ip)], acts⟩) := by
  by_cases hr : opts.replace_files = true
  · rcases hrem : env.removeResult with e | u
    · exact Or.inr (Or.inl ⟨e, rfl, hr, by simp [finishTask, hr, hrem]⟩)
    · cases u
      exact Or.inl ⟨rfl, hr, by simp [finishTask, hr, hrem]⟩
  · have hr' : opts.replace_files = false := by simpa using hr
    exact Or.inr (Or.inr ⟨hr', by simp [finishTask, hr']⟩)

lemma encodeStage_char (opts : ConvOptions) (env : TaskEnv) (ip op : String)
    (ev1 : List Event) (img : PILImage) :
    (∃ m, strUpper opts.output_format = "HEIC" ∧
      save_as_heic opts.heic_quality img.shape = Except.error m ∧
      encodeStage opts env ip op ev1 img =
        handleExn ip (ev1 ++ [Event.log "Using pillow_heif for HEIC output"])
          [.decode ip] (.exn m "")) ∨
    (∃ call, strUpper opts.output_format = "HEIC" ∧
      save_as_heic opts.heic_quality img.shape = Except.ok call ∧
      ((∃ e, env.encodeResult = Except.error e ∧
        encodeStage opts env ip op ev1 img =
          handleExn ip (ev1 ++ [Event.log "Using pillow_heif for HEIC output"])
            [.decode ip] e) ∨
       (env.encodeResult = Except.ok () ∧
        encodeStage opts env ip op ev1 img =
          finishTask opts env ip (ev1 ++ [Event.log "Using pillow_heif for HEIC output"])
            [.decode ip, .write op call.mode]))) ∨
    (strUpper opts.output_format ≠ "HEIC" ∧
      ((∃ e, env.encodeResult = Except.error e ∧
        encodeStage opts env ip op ev1 img = handleExn ip ev1 [.decode ip] e) ∨
       (env.encodeResult = Except.ok () ∧
        encodeStage opts env ip op ev1 img =
          finishTask opts env ip ev1 [.decode ip, .write op img.mode]))) := by
  by_cases hh : strUpper opts.output_format = "HEIC"
  · rcases hsv : save_as_heic opts.heic_quality img.shape with m | call
    · exact Or.inl ⟨m, hh, rfl, by simp [encodeStage, hh, hsv]⟩
    · rcases henc : env.encodeResult with e | u
      · exact Or.inr (Or.inl ⟨call, hh, rfl,
          Or.inl ⟨e, rfl, by simp [encodeStage, hh, hsv, henc]⟩⟩)
      · cases u
        exact Or.inr (Or.inl ⟨call, hh, rfl,
          Or.inr ⟨rfl, by simp [encodeStage, hh, hsv, henc]⟩⟩)
  · rcases henc : env.encodeResult with e | u
    · exact Or.inr (Or.inr ⟨hh, Or.inl ⟨e, rfl, by simp [encodeStage, hh, henc]⟩⟩)
    · cases u
      exact Or.inr (Or.inr ⟨hh, Or.inr ⟨rfl, by simp [encodeStage, hh, henc]⟩⟩)

lemma convert_image_char (opts : ConvOptions) (env : TaskEnv) (p : String) :
    (env.cancelled = true ∧ convert_image opts env p = ⟨false, [], []⟩) ∨
    (env.cancelled = false ∧ env.fileOnDisk = false ∧
      convert_image opts env p =
        ⟨false, [.log ("Skipping: " ++ normpath p ++ " - file no longer exists")], []⟩) ∨
    (env.cancelled = false ∧ env.fileOnDisk = true ∧
      strUpper (strDrop1 (splitext (basename (normpath p))).2) = strUpper opts.output_format ∧
      convert_image opts env p =
        ⟨false, [.log ("Skipping: " ++ normpath p ++ " - same format conversion")], []⟩) ∨
    (env.cancelled = false ∧ env.fileOnDisk = true ∧
      strUpper (strDrop1 (splitext (basename (normpath p))).2) ≠ strUpper opts.output_format ∧
      ((∃ e, env.decodeResult = Except.error e ∧
        convert_image opts env p =
          handleExn (normpath p) [convLog opts (normpath p)] [.decode (normpath p)] e) ∨
       (∃ img0, env.decodeResult = Except.ok img0 ∧
        convert_image opts env p =
          encodeStage opts env (normpath p) (output_path_of opts (normpath p))
            (rgbEvents opts (normpath p) img0) (rgbImage opts img0)))) := by
  rcases hc : env.cancelled with _ | _
  · rcases hf : env.fileOnDisk with _ | _
    · exact Or.inr (Or.inl ⟨rfl, rfl, by simp [convert_image, hc, hf]⟩)
    · by_cases hext : strUpper (strDrop1 (splitext (basename (normpath p))).2) =
        strUpper opts.output_format
      · exact Or.inr (Or.inr (Or.inl ⟨rfl, rfl, hext, by simp [convert_image, hc, hf, hext]⟩))
      · rcases hdec : env.decodeResult with e | img0
        · exact Or.inr (Or.inr (Or.inr ⟨rfl, rfl, hext,
            Or.inl ⟨e, rfl, by simp [convert_image, hc, hf, hext, hdec]⟩⟩))
        · exact Or.inr (Or.inr (Or.inr ⟨rfl, rfl, hext,
            Or.inr ⟨img0, rfl, by simp [convert_image, hc, hf, hext, hdec]⟩⟩))
  · exact Or.inl ⟨rfl, by simp [convert_image, hc]⟩

lemma handleExn_exn_eq (ip : String) (evs : List Event) (acts : List Action) (m tb : String) :
    handleExn ip evs acts (.exn m tb) = ⟨false, evs ++ [errorEvent ip m tb], acts⟩ := rfl

lemma handleExn_fnf_eq (ip : String) (evs : List Event) (acts : List Action) :
    handleExn ip evs acts .fileNotFound =
      ⟨false, evs ++ [.log ("Skipping: " ++ ip ++ " - file no longer exists")], acts⟩ := rfl

/-- Claim C2: whenever a task deletes its source file, the encode had
succeeded and the action trace is exactly decode, then write of the output,
then delete — and whenever decode or encode raised, no deletion whatsoever
happened in that task. -/
theorem c2_delete_only_after_encode :
    ∀ (opts : ConvOptions) (env : TaskEnv) (p : String),
      (Action.delete (normpath p) ∈ (convert_image opts env p).actions →
        env.encodeResult = Except.ok () ∧
        ∃ md, (convert_image opts env p).actions =
          [Action.decode (normpath p),
           Action.write (output_path_of opts (normpath p)) md,
           Action.delete (normpath p)]) ∧
      (∀ e, env.decodeResult = Except.error e →
        ∀ q, Action.delete q ∉ (convert_image opts env p).actions) ∧
      (∀ e, env.encodeResult = Except.error e →
        ∀ q, Action.delete q ∉ (convert_image opts env p).actions) := by
  intro opts env p
  rcases convert_image_char opts env p with
    ⟨hc, heq⟩ | ⟨hc, hf, heq⟩ | ⟨hc, hf, hext, heq⟩ |
    ⟨hc, hf, hext, ⟨e0, hdec, heq⟩ | ⟨img0, hdec, heq⟩⟩
  · refine ⟨fun hmem => ?_, fun e he q => ?_, fun e he q => ?_⟩ <;> rw [heq]
    · rw [heq] at hmem; simp at hmem
    · simp
    · simp
  · refine ⟨fun hmem => ?_, fun e he q => ?_, fun e he q => ?_⟩ <;> rw [heq]
    · rw [heq] at hmem; simp at hmem
    · simp
    · simp
  · refine ⟨fun hmem => ?_, fun e he q => ?_, fun e he q => ?_⟩ <;> rw [heq]
    · rw [heq] at hmem; simp at hmem
    · simp
    · simp
  · refine ⟨fun hmem => ?_, fun e he q => ?_, fun e he q => ?_⟩ <;>
      rw [heq, handleExn_actions]
    · rw [heq, handleExn_actions] at hmem; simp at hmem
    · simp
    · simp
  · have hdecF : ∀ e : PyErr, env.decodeResult = Except.error e → False := by
      intro e he; rw [hdec] at he; exact Except.noConfusion he
    rcases encodeStage_char opts env (normpath p) (output_path_of opts (normpath p))
        (rgbEvents opts (normpath p) img0) (rgbImage opts img0) with
      ⟨m, hh, hsv, heq2⟩ | ⟨call, hh, hsv, ⟨e1, henc, heq2⟩ | ⟨henc, heq2⟩⟩ |
      ⟨hh, ⟨e1, henc, heq2⟩ | ⟨henc, heq2⟩⟩
    · refine ⟨fun hmem => ?_, fun e he q => (hdecF e he).elim, fun e he q => ?_⟩
      · rw [heq, heq2, handleExn_actions] at hmem; simp at hmem
      · rw [heq, heq2, handleExn_actions]; simp
    · refine ⟨fun hmem => ?_, fun e he q => (hdecF e he).elim, fun e he q => ?_⟩
      · rw [heq, heq2, handleExn_actions] at hmem; simp at hmem
      · rw [heq, heq2, handleExn_actions]; simp
    · have hencF : ∀ e : PyErr, env.encodeResult = Except.error e → False := by
        intro e he; rw [henc] at he; exact Except.noConfusion he
      rcases finishTask_char opts env (normpath p)
          (rgbEvents opts (normpath p) img0 ++ [Event.log "Using pillow_heif for HEIC output"])
          [Action.decode (normpath p),
           Action.write (output_path_of opts (normpath p)) call.mode] with
        ⟨hrem, hrep, heq3⟩ | ⟨e2, hrem, hrep, heq3⟩ | ⟨hrep, heq3⟩
      · exact ⟨fun hmem => ⟨henc, call.mode, by rw [heq, heq2, heq3]; rfl⟩,
          fun e he q => (hdecF e he).elim, fun e he q => (hencF e he).elim⟩
      · refine ⟨fun hmem => ?_, fun e he q => (hdecF e he).elim,
          fun e he q => (hencF e he).elim⟩
        rw [heq, heq2, heq3, handleExn_actions] at hmem; simp at hmem
      · refine ⟨fun hmem => ?_, fun e he q => (hdecF e he).elim,
          fun e he q => (hencF e he).elim⟩
        rw [heq, heq2, heq3] at hmem; simp at hmem
    · refine ⟨fun hmem => ?_, fun e he q => (hdecF e he).elim, fun e he q => ?_⟩
      · rw [heq, heq2, handleExn_actions] at hmem; simp at hmem
      · rw [heq, heq2, handleExn_actions]; simp
    · have hencF : ∀ e : PyErr, env.encodeResult = Except.error e → False := by
        intro e he; rw [henc] at he; exact Except.noConfusion he
      rcases finishTask_char opts env (normpath p)
          (rgbEvents opts (normpath p) img0)
          [Action.decode (normpath p),
           Action.write (output_path_of opts (normpath p)) (rgbImage opts img0).mode] with
        ⟨hrem, hrep, heq3⟩ | ⟨e2, hrem, hrep, heq3⟩ | ⟨hrep, heq3⟩
      · exact ⟨fun hmem => ⟨henc, (rgbImage opts img0).mode, by rw [heq, heq2, heq3]; rfl⟩,
          fun e he q => (hdecF e he).elim, fun e he q => (hencF e he).elim⟩
      · refine ⟨fun hmem => ?_, fun e he q => (hdecF e he).elim,
          fun e he q => (hencF e he).elim⟩
        rw [heq, heq2, heq3, handleExn_actions] at hmem; simp at hmem
      · refine ⟨fun hmem => ?_, fun e he q => (hdecF e he).elim,
          fun e he q => (hencF e he).elim⟩
        rw [heq, heq2, heq3] at hmem; simp at hmem

theorem c2_delete_only_after_encode_witness :
    (Except.ok () : Except PyErr Unit) = Except.ok () ∧
    ∃ md, (convert_image ⟨"JPG", "/out", true, true, 90⟩
        ⟨false, true, Except.ok ⟨"RGBA", .threeD 2 2 4⟩, Except.ok (), Except.ok ()⟩
        "/in/photo.png").actions =
      [Action.decode (normpath "/in/photo.png"),
       Action.write (output_path_of ⟨"JPG", "/out", true, true, 90⟩ (normpath "/in/photo.png")) md,
       Action.delete (normpath "/in/photo.png")] :=
  (c2_delete_only_after_encode ⟨"JPG", "/out", true, true, 90⟩
    ⟨false, true, Except.ok ⟨"RGBA", .threeD 2 2 4⟩, Except.ok (), Except.ok ()⟩
    "/in/photo.png").1 (by decide)

lemma toRGBcond_heic (opts : ConvOptions) (img : PILImage)
    (hh : strUpper opts.output_format = "HEIC") : toRGBcond opts img = false := by
  simp [toRGBcond, hh]

lemma rgbImage_heic (opts : ConvOptions) (img : PILImage)
    (hh : strUpper opts.output_format = "HEIC") : rgbImage opts img = img := by
  simp [rgbImage, toRGBcond_heic opts img hh]

/-- Claim C4: the task never lets an exception escape.  Each failing step —
decode raising a generic exception or FileNotFoundError, a non-HEIC encode
raising, the HEIC path rejecting the pixel shape, or the delete of the
original raising — is caught inside convert_image and turned into an
unsuccessful (False) result together with an error or log event carrying
the diagnostic text, so the scheduler and the other tasks continue. -/
theorem c4_failures_contained :
    ∀ (opts : ConvOptions) (env : TaskEnv) (p : String),
      (∀ msg tb, env.decodeResult = Except.error (.exn msg tb) →
        Action.decode (normpath p) ∈ (convert_image opts env p).actions →
        (convert_image opts env p).success = false ∧
        errorEvent (normpath p) msg tb ∈ (convert_image opts env p).events) ∧
      (env.decodeResult = Except.error .fileNotFound →
        Action.decode (normpath p) ∈ (convert_image opts env p).actions →
        (convert_image opts env p).success = false ∧
        Event.log ("Skipping: " ++ normpath p ++ " - file no longer exists") ∈
          (convert_image opts env p).events) ∧
      (∀ img msg tb, env.decodeResult = Except.ok img →
        env.encodeResult = Except.error (.exn msg tb) →
        strUpper opts.output_format ≠ "HEIC" →
        Action.decode (normpath p) ∈ (convert_image opts env p).actions →
        (convert_image opts env p).success = false ∧
        errorEvent (normpath p) msg tb ∈ (convert_image opts env p).events) ∧
      (∀ img m, env.decodeResult = Except.ok img →
        strUpper opts.output_format = "HEIC" →
        save_as_heic opts.heic_quality img.shape = Except.error m →
        Action.decode (normpath p) ∈ (convert_image opts env p).actions →
        (convert_image opts env p).success = false ∧
        errorEvent (normpath p) m "" ∈ (convert_image opts env p).events) ∧
      (∀ msg tb, opts.replace_files = true →
        env.removeResult = Except.error (.exn msg tb) →
        (∃ op md, Action.write op md ∈ (convert_image opts env p).actions) →
        (convert_image opts env p).success = false ∧
        errorEvent (normpath p) msg tb ∈ (convert_image opts env p).events) := by
  intro opts env p
  rcases convert_image_char opts env p with
    ⟨hc, heq⟩ | ⟨hc, hf, heq⟩ | ⟨hc, hf, hext, heq⟩ |
    ⟨hc, hf, hext, ⟨e0, hdec, heq⟩ | ⟨img0, hdec, heq⟩⟩
  case _ | _ | _ =>
    -- the three skip cases: no decode action was recorded, so every
    -- conjunct's reachability hypothesis is refuted
    refine ⟨fun msg tb _ hmem => ?_, fun _ hmem => ?_, fun img msg tb _ _ _ hmem => ?_,
        fun img m _ _ _ hmem => ?_, fun msg tb _ _ hmem => ?_⟩ <;>
      [skip; skip; skip; skip; (obtain ⟨op, md, hmem⟩ := hmem)] <;>
      rw [heq] at hmem <;> simp at hmem
  · -- decode raised
    refine ⟨fun msg tb hd hmem => ?_, fun hd hmem => ?_, fun img msg tb hd _ _ _ => ?_,
        fun img m hd _ _ _ => ?_, fun msg tb _ _ hmem => ?_⟩
    · rw [hdec] at hd
      obtain rfl : e0 = PyErr.exn msg tb := Except.error.inj hd
      rw [heq, handleExn_exn_eq]
      exact ⟨rfl, by simp⟩
    · rw [hdec] at hd
      obtain rfl : e0 = PyErr.fileNotFound := Except.error.inj hd
      rw [heq, handleExn_fnf_eq]
      exact ⟨rfl, by simp⟩
    · rw [hdec] at hd; exact Except.noConfusion hd
    · rw [hdec] at hd; exact Except.noConfusion hd
    · obtain ⟨op, md, hmem⟩ := hmem
      rw [heq, handleExn_actions] at hmem; simp at hmem
  · -- decode succeeded: encodeStage
    have hdecF : ∀ e : PyErr, env.decodeResult = Except.error e → False := by
      intro e he; rw [hdec] at he; exact Except.noConfusion he
    rcases encodeStage_char opts env (normpath p) (output_path_of opts (normpath p))
        (rgbEvents opts (normpath p) img0) (rgbImage opts img0) with
      ⟨m0, hh, hsv, heq2⟩ | ⟨call, hh, hsv, ⟨e1, henc, heq2⟩ | ⟨henc, heq2⟩⟩ |
      ⟨hh, ⟨e1, henc, heq2⟩ | ⟨henc, heq2⟩⟩
    · -- HEIC, unsupported shape
      refine ⟨fun msg tb hd _ => (hdecF _ hd).elim, fun hd _ => (hdecF _ hd).elim,
          fun img msg tb hd _ hne _ => absurd hh hne,
          fun img m hd hh' hsv' _ => ?_, fun msg tb _ _ hmem => ?_⟩
      · rw [hdec] at hd
        obtain rfl : img0 = img := Except.ok.inj hd
        rw [rgbImage_heic opts img0 hh] at hsv
        rw [hsv'] at hsv
        obtain rfl : m0 = m := (Except.error.inj hsv).symm
        rw [heq, heq2, handleExn_exn_eq]
        exact ⟨rfl, by simp⟩
      · obtain ⟨op, md, hmem⟩ := hmem
        rw [heq, heq2, handleExn_actions] at hmem; simp at hmem
    · -- HEIC, encoder raised
      refine ⟨fun msg tb hd _ => (hdecF _ hd).elim, fun hd _ => (hdecF _ hd).elim,
          fun img msg tb hd _ hne _ => absurd hh hne,
          fun img m hd hh' hsv' _ => ?_, fun msg tb _ _ hmem => ?_⟩
      · rw [hdec] at hd
        obtain rfl : img0 = img := Except.ok.inj hd
        rw [rgbImage_heic opts img0 hh, hsv'] at hsv
        exact Except.noConfusion hsv
      · obtain ⟨op, md, hmem⟩ := hmem
        rw [heq, heq2, handleExn_actions] at hmem; simp at hmem
    · -- HEIC, encode succeeded, then finishTask
      have hencF : ∀ e : PyErr, env.encodeResult = Except.error e → False := by
        intro e he; rw [henc] at he; exact Except.noConfusion he
      rcases finishTask_char opts env (normpath p)
          (rgbEvents opts (normpath p) img0 ++ [Event.log "Using pillow_heif for HEIC output"])
          [Action.decode (normpath p),
           Action.write (output_path_of opts (normpath p)) call.mode] with
        ⟨hrem, hrep, heq3⟩ | ⟨e2, hrem, hrep, heq3⟩ | ⟨hrep, heq3⟩
      · refine ⟨fun msg tb hd _ => (hdecF _ hd).elim, fun hd _ => (hdecF _ hd).elim,
            fun img msg tb hd _ hne _ => absurd hh hne,
            fun img m hd hh' hsv' _ => ?_, fun msg tb _ hrm _ => ?_⟩
        · rw [hdec] at hd
          obtain rfl : img0 = img := Except.ok.inj hd
          rw [rgbImage_heic opts img0 hh, hsv'] at hsv
          exact Except.noConfusion hsv
        · rw [hrem] at hrm; exact Except.noConfusion hrm
      · refine ⟨fun msg tb hd _ => (hdecF _ hd).elim, fun hd _ => (hdecF _ hd).elim,
            fun img msg tb hd _ hne _ => absurd hh hne,
            fun img m hd hh' hsv' _ => ?_, fun msg tb _ hrm _ => ?_⟩
        · rw [hdec] at hd
          obtain rfl : img0 = img := Except.ok.inj hd
          rw [rgbImage_heic opts img0 hh, hsv'] at hsv
          exact Except.noConfusion hsv
        · rw [hrem] at hrm
          obtain rfl : e2 = PyErr.exn msg tb := Except.error.inj hrm
          rw [heq, heq2, heq3, handleExn_exn_eq]
          exact ⟨rfl, by simp⟩
      · refine ⟨fun msg tb hd _ => (hdecF _ hd).elim, fun hd _ => (hdecF _ hd).elim,
            fun img msg tb hd _ hne _ => absurd hh hne,
            fun img m hd hh' hsv' _ => ?_, fun msg tb hrp _ _ => ?_⟩
        · rw [hdec] at hd
          obtain rfl : img0 = img := Except.ok.inj hd
          rw [rgbImage_heic opts img0 hh, hsv'] at hsv
          exact Except.noConfusion hsv
        · rw [hrep] at hrp; exact Bool.noConfusion hrp
    · -- plain format, encoder raised
      refine ⟨fun msg tb hd _ => (hdecF _ hd).elim, fun hd _ => (hdecF _ hd).elim,
          fun img msg tb hd hen _ _ => ?_, fun img m hd hh' _ _ => absurd hh' hh,
          fun msg tb _ _ hmem => ?_⟩
      · rw [henc] at hen
        obtain rfl : e1 = PyErr.exn msg tb := Except.error.inj hen
        rw [heq, heq2, handleExn_exn_eq]
        exact ⟨rfl, by simp⟩
      · obtain ⟨op, md, hmem⟩ := hmem
        rw [heq, heq2, handleExn_actions] at hmem; simp at hmem
    · -- plain format, encode succeeded, then finishTask
      have hencF : ∀ e : PyErr, env.encodeResult = Except.error e → False := by
        intro e he; rw [henc] at he; exact Except.noConfusion he
      rcases finishTask_char opts env (normpath p)
          (rgbEvents opts (normpath p) img0)
          [Action.decode (normpath p),
           Action.write (output_path_of opts (normpath p)) (rgbImage opts img0).mode] with
        ⟨hrem, hrep, heq3⟩ | ⟨e2, hrem, hrep, heq3⟩ | ⟨hrep, heq3⟩
      · refine ⟨fun msg tb hd _ => (hdecF _ hd).elim, fun hd _ => (hdecF _ hd).elim,
            fun img msg tb hd hen _ _ => (hencF _ hen).elim,
            fun img m hd hh' _ _ => absurd hh' hh, fun msg tb _ hrm _ => ?_⟩
        rw [hrem] at hrm; exact Except.noConfusion hrm
      · refine ⟨fun msg tb hd _ => (hdecF _ hd).elim, fun hd _ => (hdecF _ hd).elim,
            fun img msg tb hd hen _ _ => (hencF _ hen).elim,
            fun img m hd hh' _ _ => absurd hh' hh, fun msg tb _ hrm _ => ?_⟩
        rw [hrem] at hrm
        obtain rfl : e2 = PyErr.exn msg tb := Except.error.inj hrm
        rw [heq, heq2, heq3, handleExn_exn_eq]
        exact ⟨rfl, by simp⟩
      · refine ⟨fun msg tb hd _ => (hdecF _ hd).elim, fun hd _ => (hdecF _ hd).elim,
            fun img msg tb hd hen _ _ => (hencF _ hen).elim,
            fun img m hd hh' _ _ => absurd hh' hh, fun msg tb hrp _ _ => ?_⟩
        rw [hrep] at hrp; exact Bool.noConfusion hrp

theorem c4_failures_contained_witness :
    (convert_image ⟨"PNG", "/out", true, false, 90⟩
        ⟨false, true, Except.error (.exn "cannot identify image file" "tb0"),
         Except.ok (), Except.ok ()⟩ "/in/a.jpg").success = false ∧
    errorEvent (normpath "/in/a.jpg") "cannot identify image file" "tb0" ∈
      (convert_image ⟨"PNG", "/out", true, false, 90⟩
        ⟨false, true, Except.error (.exn "cannot identify image file" "tb0"),
         Except.ok (), Except.ok ()⟩ "/in/a.jpg").events :=
  (c4_failures_contained ⟨"PNG", "/out", true, false, 90⟩
    ⟨false, true, Except.error (.exn "cannot identify image file" "tb0"),
     Except.ok (), Except.ok ()⟩ "/in/a.jpg").1
    "cannot identify image file" "tb0" rfl (by decide)

lemma toRGBcond_true (opts : ConvOptions) (img : PILImage)
    (hfmt : strUpper opts.output_format = "JPG" ∨ strUpper opts.output_format = "JPEG")
    (hmode : img.mode = "RGBA" ∨ img.mode = "P") : toRGBcond opts img = true := by
  rcases hfmt with h | h <;> rcases hmode with h2 | h2 <;> simp [toRGBcond, h, h2]

/-- Claim C9 (counterexample): a decoded image of PIL mode "LA"
(grayscale plus alpha) does carry an alpha channel, yet a JPG conversion
hands it to the encoder unchanged — no RGB normalization happens and no
normalization log is emitted — so the claim's "every decoded image with an
alpha channel is normalized to 3-channel before encoding" is false on the
code, which only normalizes the modes "RGBA" and "P". -/
theorem c9_alpha_counterexample :
    modeHasAlpha "LA" = true ∧
    (convert_image ⟨"JPG", "/out", false, false, 90⟩
        ⟨false, true, Except.ok ⟨"LA", .threeD 2 2 2⟩, Except.ok (), Except.ok ()⟩
        "/in/a.png").actions =
      [Action.decode "/in/a.png", Action.write "/out/a.jpg" "LA"] ∧
    ("LA" : String) ≠ "RGB" ∧
    Event.log ("Converting image to RGB mode for " ++ "JPG") ∉
      (convert_image ⟨"JPG", "/out", false, false, 90⟩
        ⟨false, true, Except.ok ⟨"LA", .threeD 2 2 2⟩, Except.ok (), Except.ok ()⟩
        "/in/a.png").events := by
  refine ⟨rfl, by decide, by decide, by decide⟩

/-- Claim C9 (amended): the RGB normalization before a JPG encode happens
exactly for the decoded modes "RGBA" (4-channel alpha) and "P" (palette):
for every such task — with or without replaceOriginal — the image is
converted to mode "RGB" before it is handed to the encoder, a
normalization log line and no error event is emitted, and the conversion
succeeds (provided the remaining I/O of the task, the encode and the
optional delete, succeeds); decoded images in other alpha-carrying modes
such as "LA" are handed to the encoder unchanged. -/
theorem c9_normalize_amended :
    ∀ (opts : ConvOptions) (env : TaskEnv) (p : String) (img : PILImage),
      env.cancelled = false → env.fileOnDisk = true →
      env.decodeResult = Except.ok img →
      env.encodeResult = Except.ok () →
      (opts.replace_files = true → env.removeResult = Except.ok ()) →
      (strUpper opts.output_format = "JPG" ∨ strUpper opts.output_format = "JPEG") →
      (img.mode = "RGBA" ∨ img.mode = "P") →
      strUpper (strDrop1 (splitext (basename (normpath p))).2) ≠ strUpper opts.output_format →
      (convert_image opts env p).success = true ∧
      Action.write (output_path_of opts (normpath p)) "RGB" ∈
        (convert_image opts env p).actions ∧
      Event.log ("Converting image to RGB mode for " ++ opts.output_format) ∈
        (convert_image opts env p).events ∧
      (∀ m, Event.error m ∉ (convert_image opts env p).events) := by
  intro opts env p img hc hf hdecH hencH hrepH hfmt hmode hext
  have hne : strUpper opts.output_format ≠ "HEIC" := by
    rcases hfmt with h | h <;> rw [h] <;> decide
  have hrgbc : toRGBcond opts img = true := toRGBcond_true opts img hfmt hmode
  have hrgbi : rgbImage opts img = { img with mode := "RGB" } := by
    simp [rgbImage, hrgbc]
  have hrgbe : rgbEvents opts (normpath p) img =
      [convLog opts (normpath p),
       .log ("Converting image to RGB mode for " ++ opts.output_format)] := by
    simp [rgbEvents, hrgbc]
  rcases convert_image_char opts env p with
    ⟨hc', heq⟩ | ⟨hc', hf', heq⟩ | ⟨hc', hf', hext', heq⟩ |
    ⟨hc', hf', hext', ⟨e0, hdec, heq⟩ | ⟨img0, hdec, heq⟩⟩
  · rw [hc] at hc'; exact Bool.noConfusion hc'
  · rw [hf] at hf'; exact Bool.noConfusion hf'
  · exact absurd hext' hext
  · rw [hdecH] at hdec; exact Except.noConfusion hdec
  · rw [hdecH] at hdec
    obtain rfl : img = img0 := Except.ok.inj hdec
    rcases encodeStage_char opts env (normpath p) (output_path_of opts (normpath p))
        (rgbEvents opts (normpath p) img) (rgbImage opts img) with
      ⟨m0, hh, hsv, heq2⟩ | ⟨call, hh, hsv, ⟨e1, henc, heq2⟩ | ⟨henc, heq2⟩⟩ |
      ⟨hh, ⟨e1, henc, heq2⟩ | ⟨henc, heq2⟩⟩
    · exact absurd hh hne
    · exact absurd hh hne
    · exact absurd hh hne
    · rw [hencH] at henc; exact Except.noConfusion henc
    · rcases finishTask_char opts env (normpath p)
          (rgbEvents opts (normpath p) img)
          [Action.decode (normpath p),
           Action.write (output_path_of opts (normpath p)) (rgbImage opts img).mode] with
        ⟨hrem, hrep, heq3⟩ | ⟨e2, hrem, hrep, heq3⟩ | ⟨hrep, heq3⟩
      · rw [heq, heq2, heq3, hrgbi, hrgbe]
        refine ⟨rfl, ?_, ?_, ?_⟩
        · simp
        · simp
        · intro m; simp [convLog]
      · rw [hrepH hrep] at hrem; exact Except.noConfusion hrem
      · rw [heq, heq2, heq3, hrgbi, hrgbe]
        refine ⟨rfl, ?_, ?_, ?_⟩
        · simp
        · simp
        · intro m; simp [convLog]

theorem c9_normalize_amended_witness :
    (convert_image ⟨"JPG", "/out", true, true, 90⟩
        ⟨false, true, Except.ok ⟨"RGBA", .threeD 2 2 4⟩, Except.ok (), Except.ok ()⟩
        "/in/photo.png").success = true ∧
    Action.write (output_path_of ⟨"JPG", "/out", true, true, 90⟩ (normpath "/in/photo.png"))
        "RGB" ∈
      (convert_image ⟨"JPG", "/out", true, true, 90⟩
        ⟨false, true, Except.ok ⟨"RGBA", .threeD 2 2 4⟩, Except.ok (), Except.ok ()⟩
        "/in/photo.png").actions ∧
    Event.log ("Converting image to RGB mode for " ++ "JPG") ∈
      (convert_image ⟨"JPG", "/out", true, true, 90⟩
        ⟨false, true, Except.ok ⟨"RGBA", .threeD 2 2 4⟩, Except.ok (), Except.ok ()⟩
        "/in/photo.png").events ∧
    (∀ m, Event.error m ∉
      (convert_image ⟨"JPG", "/out", true, true, 90⟩
        ⟨false, true, Except.ok ⟨"RGBA", .threeD 2 2 4⟩, Except.ok (), Except.ok ()⟩
        "/in/photo.png").events) :=
  c9_normalize_amended ⟨"JPG", "/out", true, true, 90⟩
    ⟨false, true, Except.ok ⟨"RGBA", .threeD 2 2 4⟩, Except.ok (), Except.ok ()⟩
    "/in/photo.png" ⟨"RGBA", .threeD 2 2 4⟩ rfl rfl rfl rfl (fun _ => rfl)
    (Or.inl (by decide)) (Or.inl rfl) (by decide)

end ImgConv
